import Mathlib

/-!
# The coordinator loop of `runner/start.go`

A shallow embedding of `flushEvents` and of the coordinator goroutine of
`start` (lines 24-33 and 48-91 of `src/runner/start.go`).

* `startChannel` is a FIFO list of event names.  The list holds the buffered
  values followed by the values of senders blocked on the full 1000-slot
  buffer, which Go hands to the receiver in the same FIFO order.
* The collaborators that are not part of this file of the repository
  (`shouldRebuild`, `isDebuggingEnabled`, `build`, `run`,
  `removeBuildErrorsLog`, `createBuildErrorsLog`) are parameters: the filter
  is a function of the event name, the others are given per loop iteration by
  a `Round`.
* Every call the loop makes is recorded in a trace of `Action`s, in program
  order.  `mainLog` calls only print and are left out of the trace.
* The loop never returns; `loop` runs it for the iterations described by a
  finite list of rounds, so every statement about `loop` for all lists of
  rounds is a statement about every finite prefix of every execution.
* The shutdown path (the stop goroutine of lines 41-46 and the signal
  goroutine of lines 102-111) is a trace of timed calls, the time counted in
  milliseconds from the receipt of the signal; the time `killAllFn()` takes is
  a parameter.
-/

namespace Runner

/-- The value of type `KillFn` returned by `run`; `none` in an
`Option KillFn` is Go's `nil` function value. -/
abbrev KillFn := Nat

/-- The calls made by the coordinator loop, in the order of the source. -/
inductive Action where
  /-- Line 52: `eventName := <-startChannel` completed with this value. -/
  | receive (eventName : String)
  /-- Line 56: `time.Sleep(buildDelay * time.Millisecond)` returned. -/
  | sleep
  /-- Line 27: `flushEvents` received (and dropped) this value. -/
  | flushed (eventName : String)
  /-- Line 62: `removeBuildErrorsLog()`. -/
  | removeBuildErrorsLog
  /-- Line 69: `shouldRebuild(eventName)`. -/
  | shouldRebuild (eventName : String)
  /-- Line 70: `build(debug)` returned `ok`. -/
  | build (debug : Bool) (ok : Bool)
  /-- Line 75: `os.Exit(code)`. -/
  | exit (code : Nat)
  /-- Line 77: `createBuildErrorsLog(errorMessage)`. -/
  | createBuildErrorsLog (errorMessage : String)
  /-- Line 83: `killAllFn()` was called on the function `f` and returned. -/
  | kill (f : KillFn)
  /-- Line 85: `run(debug)` returned `result`. -/
  | run (debug : Bool) (result : Option KillFn)
  deriving DecidableEq, Repr

/-- The variables of `start` that the loop reads and writes, the content of
`startChannel`, and the build-errors file (`some text` when it exists). -/
structure State where
  loopIndex : Nat
  started : Bool
  killAllFn : Option KillFn
  startChannel : List String
  buildErrorsLog : Option String
  deriving DecidableEq, Repr

/-- What the environment does during one loop iteration. -/
structure Round where
  /-- Events sent on `startChannel` from the start of the iteration until
  `flushEvents` takes its `default` branch. -/
  sent : List String
  /-- Events sent on `startChannel` after `flushEvents` returned and before
  the iteration ends. -/
  sentAfterFlush : List String
  /-- The error returned by `removeBuildErrorsLog()`; `none` is `nil`. -/
  removeErr : Option String
  /-- The result of `isDebuggingEnabled()`. -/
  isDebuggingEnabled : Bool
  /-- The result `(errorMessage, ok)` of `build(debug)`. -/
  build : Bool → String × Bool
  /-- Whether the write of `createBuildErrorsLog` succeeds. -/
  createOk : Bool
  /-- The result of `run(debug)`. -/
  run : Bool → Option KillFn

/-- How one iteration, or a run of iterations, ends. -/
inductive Outcome where
  /-- The iteration completed; the loop goes on from this state. -/
  | next (s : State)
  /-- `os.Exit(code)` was called. -/
  | exit (code : Nat)
  /-- A nil `KillFn` was called (a run-time panic). -/
  | nilCall
  /-- The receive of line 52 never completes: no event is ever sent. -/
  | blocked
  deriving DecidableEq, Repr

/-- Lines 24-33.  Receives from the channel until it is empty, dropping each
value; returns the receives made and the channel left behind. -/
def flushEvents : List String → List Action × List String
  | [] => ([], [])
  | eventName :: rest =>
      let r := flushEvents rest
      (Action.flushed eventName :: r.1, r.2)

/-- Modelled from the spec: `removeBuildErrorsLog` is not under src/; the
spec asks of it "remove if exists".  `err` is the error it returns. -/
def removeBuildErrorsLog (err : Option String) (log : Option String) : Option String :=
  match err with
  | none => none
  | some _ => log

/-- Modelled from the spec: `createBuildErrorsLog` is not under src/; the
spec asks of it "write text".  `ok` tells whether the write succeeds. -/
def createBuildErrorsLog (ok : Bool) (errorMessage : String) (log : Option String) :
    Option String :=
  if ok then some errorMessage else log

/-- Lines 68-79.  Returns the calls made and, unless `os.Exit(1)` was called,
the value of `buildFailed` and the build-errors file. -/
def buildStep (shouldRebuild : String → Bool) (started : Bool) (r : Round)
    (eventName : String) (debug : Bool) (log : Option String) :
    List Action × Option (Bool × Option String) :=
  if shouldRebuild eventName then
    let res := r.build debug
    if !res.2 then
      if !started then
        ([Action.shouldRebuild eventName, Action.build debug false, Action.exit 1], none)
      else
        ([Action.shouldRebuild eventName, Action.build debug false,
          Action.createBuildErrorsLog res.1],
         some (true, createBuildErrorsLog r.createOk res.1 log))
    else
      ([Action.shouldRebuild eventName, Action.build debug true], some (false, log))
  else
    ([Action.shouldRebuild eventName], some (false, log))

/-- Lines 81-86.  Returns the calls made and the new value of `killAllFn`,
or `none` when a nil `killAllFn` was called. -/
def restartStep (started : Bool) (killAllFn : Option KillFn) (r : Round)
    (debug buildFailed : Bool) : List Action × Option (Option KillFn) :=
  if !buildFailed then
    if started then
      match killAllFn with
      | none => ([], none)
      | some f => ([Action.kill f, Action.run debug (r.run debug)], some (r.run debug))
    else
      ([Action.run debug (r.run debug)], some (r.run debug))
  else
    ([], some killAllFn)

/-- Lines 50-89: one iteration of the coordinator loop. -/
def iteration (shouldRebuild : String → Bool) (s : State) (r : Round) :
    List Action × Outcome :=
  match s.startChannel ++ r.sent with
  | [] => ([], Outcome.blocked)
  | eventName :: queued =>
      let fl := flushEvents queued
      let pre := [Action.receive eventName, Action.sleep] ++ fl.1 ++
        [Action.removeBuildErrorsLog]
      let log := removeBuildErrorsLog r.removeErr s.buildErrorsLog
      let debug := r.isDebuggingEnabled
      let b := buildStep shouldRebuild s.started r eventName debug log
      match b.2 with
      | none => (pre ++ b.1, Outcome.exit 1)
      | some (buildFailed, log2) =>
          let k := restartStep s.started s.killAllFn r debug buildFailed
          match k.2 with
          | none => (pre ++ b.1 ++ k.1, Outcome.nilCall)
          | some fn =>
              (pre ++ b.1 ++ k.1,
               Outcome.next
                 { loopIndex := s.loopIndex + 1
                   started := true
                   killAllFn := fn
                   startChannel := fl.2 ++ r.sentAfterFlush
                   buildErrorsLog := log2 })

/-- The loop of lines 49-90, run for the given rounds. -/
def loop (shouldRebuild : String → Bool) : State → List Round → List Action × Outcome
  | s, [] => ([], Outcome.next s)
  | s, r :: rs =>
      match iteration shouldRebuild s r with
      | (t, Outcome.next s2) =>
          let rest := loop shouldRebuild s2 rs
          (t ++ rest.1, rest.2)
      | (t, o) => (t, o)

/-- Lines 36-40 and `init`: the state in which the loop is entered.  `log` is
the build-errors file as found on disk. -/
def initState (log : Option String) : State :=
  { loopIndex := 0, started := false, killAllFn := none, startChannel := [],
    buildErrorsLog := log }

/-- The coordinator goroutine of `start`, run for the given rounds. -/
def start (shouldRebuild : String → Bool) (log : Option String) (rounds : List Round) :
    List Action × Outcome :=
  loop shouldRebuild (initState log) rounds

/-! ## Reading a trace -/

/-- Whether the action is a call of `run`. -/
def isRun : Action → Bool
  | Action.run _ _ => true
  | _ => false

/-- Whether the action is a call of a kill function. -/
def isKill : Action → Bool
  | Action.kill _ => true
  | _ => false

/-- Whether the action is a call of `build`. -/
def isBuild : Action → Bool
  | Action.build _ _ => true
  | _ => false

/-- Whether the action is a call of `shouldRebuild`. -/
def isShouldRebuild : Action → Bool
  | Action.shouldRebuild _ => true
  | _ => false

/-- The results `ok` of the build attempts of a trace, in order. -/
def buildResults : List Action → List Bool
  | [] => []
  | Action.build _ ok :: t => ok :: buildResults t
  | _ :: t => buildResults t

/-- The result of the last call of `run` so far (`none`: no call so far). -/
def lastRunStep (acc : Option (Option KillFn)) : Action → Option (Option KillFn)
  | Action.run _ result => some result
  | _ => acc

/-- The result of the last call of `run` in a trace. -/
def lastRun (t : List Action) : Option (Option KillFn) :=
  t.foldl lastRunStep none

/-- The process handles that are live: one enters at the call of `run` that
returns it and leaves when its kill function returns. -/
def liveStep (acc : List (Option KillFn)) : Action → List (Option KillFn)
  | Action.run _ result => acc ++ [result]
  | Action.kill f => acc.erase (some f)
  | _ => acc

/-- The process handles live at the end of a trace. -/
def live (t : List Action) : List (Option KillFn) :=
  t.foldl liveStep []

/-- What C1 asks at the end of the trace `p`: at most one process handle is
live, and when `p` ends with a call of `run`, either no call of `run` came
before it, or the call just before it is the completed call of the kill
function that the previous call of `run` returned. -/
def Ordered (p : List Action) : Prop :=
  (live p).length ≤ 1 ∧
    ∀ pre d result, p = pre ++ [Action.run d result] →
      lastRun pre = none ∨
        ∃ pre2 g, pre = pre2 ++ [Action.kill g] ∧ lastRun pre2 = some (some g)

/-- `Ordered` at every point of the trace. -/
def AllOrdered (t : List Action) : Prop :=
  ∀ p, p <+: t → Ordered p

/-- The link between the loop variables and the trace so far. -/
def Tracks (s : State) (t : List Action) : Prop :=
  lastRun t = (if s.started then some s.killAllFn else none) ∧
    live t = (if s.started then [s.killAllFn] else [])

/-! ## The shutdown path -/

/-- The calls made on the shutdown path. -/
inductive SignalAction where
  /-- Line 105: `time.AfterFunc` armed the timer for `ms` milliseconds. -/
  | afterFunc (ms : Nat)
  /-- Line 110: `stopChannel <- true`. -/
  | send
  /-- Line 42: `<-stopChannel` completed. -/
  | receive
  /-- Line 44: `killAllFn()` was called on the function `f`. -/
  | kill (f : KillFn)
  /-- Line 44: the call of `f` returned: the child process is gone. -/
  | killed (f : KillFn)
  /-- Line 107: `os.Exit(code)`. -/
  | exit (code : Nat)
  deriving DecidableEq, Repr

/-- Line 105: `time.Second*2`, in milliseconds. -/
def gracePeriod : Nat := 2000

/-- Lines 42-45: the stop goroutine, from the receive on `stopChannel` at time
`now`.  `killDuration` is the time the call of the kill function takes. -/
def stopGoroutine (killAllFn : Option KillFn) (now killDuration : Nat) :
    List (Nat × SignalAction) :=
  (now, SignalAction.receive) ::
    match killAllFn with
    | none => []
    | some f => [(now, SignalAction.kill f), (now + killDuration, SignalAction.killed f)]

/-- Lines 106-107: the function run by the timer at time `now`. -/
def timerCallback (now : Nat) : List (Nat × SignalAction) :=
  [(now, SignalAction.exit 1)]

/-- Lines 103-110 and 42-45: what happens once the signal is received, at
time 0, with `killAllFn` the kill function stored at that time.  The timer is
armed, the send on the unbuffered `stopChannel` hands over to the stop
goroutine, and the timer fires at `gracePeriod`; calls of the stop goroutine
that would come after the exit do not happen. -/
def afterSignal (killAllFn : Option KillFn) (killDuration : Nat) :
    List (Nat × SignalAction) :=
  [(0, SignalAction.afterFunc gracePeriod), (0, SignalAction.send)] ++
    (stopGoroutine killAllFn 0 killDuration).filter (fun x => decide (x.1 ≤ gracePeriod)) ++
    timerCallback gracePeriod

/-- The calls of `os.Exit` of a timed trace: time and status. -/
def exits : List (Nat × SignalAction) → List (Nat × Nat)
  | [] => []
  | (t, SignalAction.exit code) :: rest => (t, code) :: exits rest
  | _ :: rest => exits rest

/-! ## Concrete rounds -/

/-- A filter in the manner of the default `no_rebuild_ext` setting: an HTML
file asks for no rebuild. -/
def htmlGate (eventName : String) : Bool :=
  eventName != "index.html"

/-- A round whose build succeeds and whose `run` returns `h`. -/
def okRound (sent : List String) (h : KillFn) : Round :=
  { sent := sent, sentAfterFlush := [], removeErr := none, isDebuggingEnabled := false,
    build := fun _ => ("", true), createOk := true, run := fun _ => some h }

/-- A round whose build fails and whose `run` returns `h`. -/
def failRound (sent : List String) (h : KillFn) : Round :=
  { sent := sent, sentAfterFlush := [], removeErr := none, isDebuggingEnabled := false,
    build := fun _ => ("main.go:1: syntax error", false), createOk := true,
    run := fun _ => some h }

/-- The state after one completed iteration that started process `1`. -/
def runningState : State :=
  { loopIndex := 1, started := true, killAllFn := some 1, startChannel := [],
    buildErrorsLog := none }

/-! ## Lemmas on the definitions -/

theorem flushEvents_fst (q : List String) : (flushEvents q).1 = q.map Action.flushed := by
  induction q with
  | nil => rfl
  | cons e q ih => simp [flushEvents, ih]

theorem flushEvents_snd (q : List String) : (flushEvents q).2 = [] := by
  induction q with
  | nil => rfl
  | cons e q ih => simp [flushEvents, ih]

theorem loop_cons_next {f : String → Bool} {s s2 : State} {r : Round} {t : List Action}
    (rs : List Round) (h : iteration f s r = (t, Outcome.next s2)) :
    loop f s (r :: rs) = (t ++ (loop f s2 rs).1, (loop f s2 rs).2) := by
  simp [loop, h]

theorem loop_cons_stop {f : String → Bool} {s : State} {r : Round} {t : List Action}
    {o : Outcome} (rs : List Round) (h : iteration f s r = (t, o))
    (ho : ∀ s2, o ≠ Outcome.next s2) : loop f s (r :: rs) = (t, o) := by
  cases o with
  | next s2 => exact absurd rfl (ho s2)
  | exit c => simp [loop, h]
  | nilCall => simp [loop, h]
  | blocked => simp [loop, h]

/-- A completed iteration leaves `started` set and `loopIndex` increased. -/
theorem iteration_next {f : String → Bool} {s s2 : State} {r : Round} {t : List Action}
    (h : iteration f s r = (t, Outcome.next s2)) :
    s2.started = true ∧ s2.loopIndex = s.loopIndex + 1 ∧
      s2.startChannel = r.sentAfterFlush := by
  unfold iteration at h
  split at h
  · simp at h
  · dsimp only at h
    split at h
    · simp at h
    · split at h
      · simp at h
      · simp only [Prod.mk.injEq, Outcome.next.injEq] at h
        obtain ⟨-, rfl⟩ := h
        simp [flushEvents_snd]

/-- An iteration whose build step does not exit and whose restart step calls
no nil function. -/
theorem iteration_steps {f : String → Bool} {s : State} {r : Round} {e : String}
    {q : List String} {tb tk : List Action} {bf : Bool} {log2 : Option String}
    {fn : Option KillFn}
    (h : s.startChannel ++ r.sent = e :: q)
    (hb : buildStep f s.started r e r.isDebuggingEnabled
      (removeBuildErrorsLog r.removeErr s.buildErrorsLog) = (tb, some (bf, log2)))
    (hk : restartStep s.started s.killAllFn r r.isDebuggingEnabled bf = (tk, some fn)) :
    iteration f s r =
      (Action.receive e :: Action.sleep :: (q.map Action.flushed ++
          Action.removeBuildErrorsLog :: (tb ++ tk)),
        Outcome.next { loopIndex := s.loopIndex + 1, started := true, killAllFn := fn,
                       startChannel := r.sentAfterFlush, buildErrorsLog := log2 }) := by
  simp [iteration, h, hb, hk, flushEvents_fst, flushEvents_snd]

/-- An iteration whose build step calls `os.Exit(1)`. -/
theorem iteration_exit {f : String → Bool} {s : State} {r : Round} {e : String}
    {q : List String} {tb : List Action}
    (h : s.startChannel ++ r.sent = e :: q)
    (hb : buildStep f s.started r e r.isDebuggingEnabled
      (removeBuildErrorsLog r.removeErr s.buildErrorsLog) = (tb, none)) :
    iteration f s r =
      (Action.receive e :: Action.sleep :: (q.map Action.flushed ++
          Action.removeBuildErrorsLog :: tb), Outcome.exit 1) := by
  simp [iteration, h, hb, flushEvents_fst]

/-- An iteration whose restart step calls a nil kill function. -/
theorem iteration_nilCall {f : String → Bool} {s : State} {r : Round} {e : String}
    {q : List String} {tb tk : List Action} {bf : Bool} {log2 : Option String}
    (h : s.startChannel ++ r.sent = e :: q)
    (hb : buildStep f s.started r e r.isDebuggingEnabled
      (removeBuildErrorsLog r.removeErr s.buildErrorsLog) = (tb, some (bf, log2)))
    (hk : restartStep s.started s.killAllFn r r.isDebuggingEnabled bf = (tk, none)) :
    iteration f s r =
      (Action.receive e :: Action.sleep :: (q.map Action.flushed ++
          Action.removeBuildErrorsLog :: (tb ++ tk)), Outcome.nilCall) := by
  simp [iteration, h, hb, hk, flushEvents_fst]

theorem iteration_blocked {f : String → Bool} {s : State} {r : Round}
    (h : s.startChannel ++ r.sent = []) : iteration f s r = ([], Outcome.blocked) := by
  simp [iteration, h]

/-- The build step when the filter turns the event down. -/
theorem buildStep_skip {f : String → Bool} {e : String} (hgate : f e = false)
    (started : Bool) (r : Round) (d : Bool) (log : Option String) :
    buildStep f started r e d log = ([Action.shouldRebuild e], some (false, log)) := by
  simp [buildStep, hgate]

/-- The build step when the build succeeds. -/
theorem buildStep_ok {f : String → Bool} {e : String} {r : Round} {d : Bool}
    (hgate : f e = true) (hok : (r.build d).2 = true) (started : Bool)
    (log : Option String) :
    buildStep f started r e d log =
      ([Action.shouldRebuild e, Action.build d true], some (false, log)) := by
  simp [buildStep, hgate, hok]

/-- The build step when the build fails and a process was started. -/
theorem buildStep_fail_started {f : String → Bool} {e : String} {r : Round} {d : Bool}
    {started : Bool} (hst : started = true)
    (hgate : f e = true) (hfail : (r.build d).2 = false) (log : Option String) :
    buildStep f started r e d log =
      ([Action.shouldRebuild e, Action.build d false,
          Action.createBuildErrorsLog (r.build d).1],
        some (true, createBuildErrorsLog r.createOk (r.build d).1 log)) := by
  simp [buildStep, hgate, hfail, hst]

/-- The build step when the build fails and no process was started. -/
theorem buildStep_fail_first {f : String → Bool} {e : String} {r : Round} {d : Bool}
    {started : Bool} (hst : started = false)
    (hgate : f e = true) (hfail : (r.build d).2 = false) (log : Option String) :
    buildStep f started r e d log =
      ([Action.shouldRebuild e, Action.build d false, Action.exit 1], none) := by
  simp [buildStep, hgate, hfail, hst]

theorem restartStep_failed (started : Bool) (k : Option KillFn) (r : Round) (d : Bool) :
    restartStep started k r d true = ([], some k) := by
  simp [restartStep]

theorem restartStep_first {started : Bool} (hst : started = false) (k : Option KillFn)
    (r : Round) (d : Bool) :
    restartStep started k r d false = ([Action.run d (r.run d)], some (r.run d)) := by
  simp [restartStep, hst]

theorem restartStep_restart {started : Bool} {k : Option KillFn} {g : KillFn}
    (hst : started = true) (hk : k = some g) (r : Round) (d : Bool) :
    restartStep started k r d false =
      ([Action.kill g, Action.run d (r.run d)], some (r.run d)) := by
  simp [restartStep, hst, hk]

theorem restartStep_nil {started : Bool} {k : Option KillFn}
    (hst : started = true) (hk : k = none) (r : Round) (d : Bool) :
    restartStep started k r d false = ([], none) := by
  simp [restartStep, hst, hk]

theorem buildResults_flushed (q : List String) (t : List Action) :
    buildResults (q.map Action.flushed ++ t) = buildResults t := by
  induction q with
  | nil => rfl
  | cons x q ih => simpa [buildResults] using ih

/-- Every iteration that receives an event records the receive first. -/
theorem iteration_head {f : String → Bool} {s : State} {r : Round} {e : String}
    {q : List String} (h : s.startChannel ++ r.sent = e :: q) :
    (iteration f s r).1.head? = some (Action.receive e) := by
  simp only [iteration, h]
  split
  · rfl
  · split <;> rfl

/-- An iteration either blocks on the receive or receives an event. -/
theorem iteration_split (f : String → Bool) (s : State) (r : Round) :
    iteration f s r = ([], Outcome.blocked) ∨
      ∃ e q, s.startChannel ++ r.sent = e :: q := by
  cases h : s.startChannel ++ r.sent with
  | nil => exact Or.inl (iteration_blocked h)
  | cons e q => exact Or.inr ⟨e, q, rfl⟩

/-- The state reached by a run of completed iterations. -/
theorem loop_next {f : String → Bool} {rs : List Round} :
    ∀ {s s2 : State} {t : List Action}, loop f s rs = (t, Outcome.next s2) →
      s2.loopIndex = s.loopIndex + rs.length ∧ (rs ≠ [] → s2.started = true) ∧
        (rs = [] → s2 = s) := by
  induction rs with
  | nil =>
      intro s s2 t h
      simp only [loop, Prod.mk.injEq, Outcome.next.injEq] at h
      simp [h.2]
  | cons r rs ih =>
      intro s s2 t h
      cases hit : iteration f s r with
      | mk ti o =>
          cases o with
          | next s1 =>
              rw [loop_cons_next rs hit] at h
              have h2 : loop f s1 rs = ((loop f s1 rs).1, Outcome.next s2) :=
                Prod.ext rfl (Prod.mk.inj h).2
              obtain ⟨hi, hs, he⟩ := ih h2
              obtain ⟨hst1, hli1, -⟩ := iteration_next hit
              refine ⟨by simp [hi, hli1]; omega, fun _ => ?_, by simp⟩
              cases rs with
              | nil => rw [he rfl]; exact hst1
              | cons r2 rs2 => exact hs (by simp)
          | exit c =>
              rw [loop_cons_stop rs hit (by simp)] at h
              simp at h
          | nilCall =>
              rw [loop_cons_stop rs hit (by simp)] at h
              simp at h
          | blocked =>
              rw [loop_cons_stop rs hit (by simp)] at h
              simp at h

theorem buildStep_not_flushed (f : String → Bool) (started : Bool) (r : Round)
    (e : String) (d : Bool) (log : Option String) :
    ∀ a ∈ (buildStep f started r e d log).1, ∀ x, a ≠ Action.flushed x := by
  intro a ha x hx
  subst hx
  simp only [buildStep] at ha
  repeat' split at ha
  all_goals simp at ha

theorem restartStep_not_flushed (started : Bool) (k : Option KillFn) (r : Round)
    (d bf : Bool) :
    ∀ a ∈ (restartStep started k r d bf).1, ∀ x, a ≠ Action.flushed x := by
  intro a ha x hx
  subst hx
  simp only [restartStep] at ha
  repeat' split at ha
  all_goals simp at ha

theorem live_concat (t : List Action) (a : Action) :
    live (t ++ [a]) = liveStep (live t) a := by
  simp [live, List.foldl_append]

theorem lastRun_concat (t : List Action) (a : Action) :
    lastRun (t ++ [a]) = lastRunStep (lastRun t) a := by
  simp [lastRun, List.foldl_append]

theorem allOrdered_nil : AllOrdered [] := by
  intro p hp
  have : p = [] := List.prefix_nil.mp hp
  subst this
  refine ⟨by simp [live], ?_⟩
  intro pre d result h
  simp at h

theorem allOrdered_concat {t : List Action} {a : Action} (ht : AllOrdered t)
    (ha : Ordered (t ++ [a])) : AllOrdered (t ++ [a]) := by
  intro p hp
  rcases List.prefix_concat_iff.mp hp with h | h
  · rw [h]; exact ha
  · exact ht p h

theorem liveStep_neutral {a : Action} (h : isRun a = false ∧ isKill a = false)
    (acc : List (Option KillFn)) : liveStep acc a = acc := by
  cases a <;> simp [isRun, isKill] at h <;> rfl

theorem lastRunStep_neutral {a : Action} (h : isRun a = false ∧ isKill a = false)
    (acc : Option (Option KillFn)) : lastRunStep acc a = acc := by
  cases a <;> simp [isRun, isKill] at h <;> rfl

/-- Calls other than `run` and kill calls keep the order, the live handles
and the last result of `run`. -/
theorem allOrdered_neutral (u : List Action) :
    ∀ t : List Action, AllOrdered t →
      (∀ a ∈ u, isRun a = false ∧ isKill a = false) →
      AllOrdered (t ++ u) ∧ live (t ++ u) = live t ∧ lastRun (t ++ u) = lastRun t := by
  induction u with
  | nil => intro t ht _; simpa using ht
  | cons a u ih =>
      intro t ht hu
      have ha := hu a (by simp)
      have hlive : live (t ++ [a]) = live t := by
        rw [live_concat, liveStep_neutral ha]
      have hlast : lastRun (t ++ [a]) = lastRun t := by
        rw [lastRun_concat, lastRunStep_neutral ha]
      have hord : Ordered (t ++ [a]) := by
        refine ⟨by rw [hlive]; exact (ht t (List.prefix_refl t)).1, ?_⟩
        intro pre d result h
        have := (List.append_inj' h rfl).2
        simp only [List.cons.injEq, and_true] at this
        subst this
        simp [isRun] at ha
      obtain ⟨h1, h2, h3⟩ := ih (t ++ [a]) (allOrdered_concat ht hord)
        (fun b hb => hu b (by simp [hb]))
      rw [List.append_assoc] at h1 h2 h3
      exact ⟨h1, h2.trans hlive, h3.trans hlast⟩

/-- The first call of `run`. -/
theorem allOrdered_first_run {t : List Action} (ht : AllOrdered t)
    (hlast : lastRun t = none) (hlive : live t = []) (d : Bool) (result : Option KillFn) :
    AllOrdered (t ++ [Action.run d result]) ∧
      live (t ++ [Action.run d result]) = [result] ∧
      lastRun (t ++ [Action.run d result]) = some result := by
  have hl : live (t ++ [Action.run d result]) = [result] := by
    rw [live_concat, hlive]; rfl
  refine ⟨allOrdered_concat ht ⟨by rw [hl]; simp, ?_⟩, hl, by rw [lastRun_concat]; rfl⟩
  intro pre d2 result2 h
  have := (List.append_inj' h rfl).1
  subst this
  exact Or.inl hlast

/-- A kill of the live handle followed by a call of `run`. -/
theorem allOrdered_restart {t : List Action} (ht : AllOrdered t) {g : KillFn}
    (hlast : lastRun t = some (some g)) (hlive : live t = [some g]) (d : Bool)
    (result : Option KillFn) :
    AllOrdered (t ++ [Action.kill g, Action.run d result]) ∧
      live (t ++ [Action.kill g, Action.run d result]) = [result] ∧
      lastRun (t ++ [Action.kill g, Action.run d result]) = some result := by
  have hk : live (t ++ [Action.kill g]) = [] := by
    rw [live_concat, hlive]; simp [liveStep]
  have h1 : AllOrdered (t ++ [Action.kill g]) := by
    refine allOrdered_concat ht ⟨by rw [hk]; simp, ?_⟩
    intro pre d2 result2 h
    have := (List.append_inj' h rfl).2
    simp at this
  have e : t ++ [Action.kill g, Action.run d result] =
      (t ++ [Action.kill g]) ++ [Action.run d result] := by simp
  have hl : live ((t ++ [Action.kill g]) ++ [Action.run d result]) = [result] := by
    rw [live_concat, hk]; rfl
  rw [e]
  refine ⟨allOrdered_concat h1 ⟨by rw [hl]; simp, ?_⟩, hl, by rw [lastRun_concat]; rfl⟩
  intro pre d2 result2 h
  have := (List.append_inj' h rfl).1
  subst this
  exact Or.inr ⟨t, g, rfl, hlast⟩

theorem buildStep_neutral (f : String → Bool) (started : Bool) (r : Round)
    (e : String) (d : Bool) (log : Option String) :
    ∀ a ∈ (buildStep f started r e d log).1, isRun a = false ∧ isKill a = false := by
  intro a ha
  simp only [buildStep] at ha
  repeat' split at ha
  all_goals
    simp only [List.mem_cons, List.not_mem_nil, or_false] at ha
    rcases ha with rfl | rfl | rfl | rfl <;> exact ⟨rfl, rfl⟩

/-- The build step reports a failed build only when a process was started. -/
theorem buildStep_failed_started {f : String → Bool} {started : Bool} {r : Round}
    {e : String} {d : Bool} {log l : Option String}
    (h : (buildStep f started r e d log).2 = some (true, l)) : started = true := by
  simp only [buildStep] at h
  repeat' split at h
  all_goals simp_all

theorem prelude_neutral (e : String) (q : List String) {tb : List Action}
    (htb : ∀ a ∈ tb, isRun a = false ∧ isKill a = false) :
    ∀ a ∈ Action.receive e :: Action.sleep ::
        (q.map Action.flushed ++ Action.removeBuildErrorsLog :: tb),
      isRun a = false ∧ isKill a = false := by
  intro a ha
  simp only [List.mem_cons, List.mem_append, List.mem_map] at ha
  rcases ha with rfl | rfl | ⟨x, -, rfl⟩ | rfl | ha
  · exact ⟨rfl, rfl⟩
  · exact ⟨rfl, rfl⟩
  · exact ⟨rfl, rfl⟩
  · exact ⟨rfl, rfl⟩
  · exact htb a ha

/-- The calls of an iteration: calls other than `run` and kill calls, then
nothing, or the first `run`, or the kill of the stored function and `run`. -/
theorem iteration_shape (f : String → Bool) (s : State) (r : Round) :
    ∃ N K, (iteration f s r).1 = N ++ K ∧
      (∀ a ∈ N, isRun a = false ∧ isKill a = false) ∧
      ((K = [] ∧
          (∀ s2, (iteration f s r).2 = Outcome.next s2 →
            s.started = true ∧ s2.started = true ∧ s2.killAllFn = s.killAllFn) ∧
          ((iteration f s r).2 = Outcome.nilCall → s.started = true ∧ s.killAllFn = none)) ∨
        (K = [Action.run r.isDebuggingEnabled (r.run r.isDebuggingEnabled)] ∧
          s.started = false ∧
          ∃ s2, (iteration f s r).2 = Outcome.next s2 ∧ s2.started = true ∧
            s2.killAllFn = r.run r.isDebuggingEnabled) ∨
        (∃ g, K = [Action.kill g,
            Action.run r.isDebuggingEnabled (r.run r.isDebuggingEnabled)] ∧
          s.started = true ∧ s.killAllFn = some g ∧
          ∃ s2, (iteration f s r).2 = Outcome.next s2 ∧ s2.started = true ∧
            s2.killAllFn = r.run r.isDebuggingEnabled)) := by
  rcases iteration_split f s r with hb | ⟨e, q, hrecv⟩
  · exact ⟨[], [], by simp [hb], by simp, Or.inl ⟨rfl, by simp [hb], by simp [hb]⟩⟩
  have hnb := buildStep_neutral f s.started r e r.isDebuggingEnabled
    (removeBuildErrorsLog r.removeErr s.buildErrorsLog)
  cases hb2 : (buildStep f s.started r e r.isDebuggingEnabled
      (removeBuildErrorsLog r.removeErr s.buildErrorsLog)).2 with
  | none =>
      have hit := iteration_exit hrecv (Prod.ext rfl hb2 :
        buildStep f s.started r e r.isDebuggingEnabled
          (removeBuildErrorsLog r.removeErr s.buildErrorsLog) = (_, none))
      exact ⟨_, [], by rw [hit]; simp, prelude_neutral e q hnb,
        Or.inl ⟨rfl, by simp [hit], by simp [hit]⟩⟩
  | some bl =>
      obtain ⟨bf, log2⟩ := bl
      have hb : buildStep f s.started r e r.isDebuggingEnabled
          (removeBuildErrorsLog r.removeErr s.buildErrorsLog) = (_, some (bf, log2)) :=
        Prod.ext rfl hb2
      cases bf with
      | true =>
          have hst := buildStep_failed_started hb2
          have hit := iteration_steps hrecv hb (restartStep_failed _ _ _ _)
          refine ⟨_, [], by rw [hit]; simp, prelude_neutral e q hnb, Or.inl ⟨rfl, ?_, ?_⟩⟩
          · intro s2 h2
            rw [hit] at h2
            simp only [Outcome.next.injEq] at h2
            subst h2
            exact ⟨hst, rfl, rfl⟩
          · simp [hit]
      | false =>
          cases hst : s.started with
          | false =>
              have hit := iteration_steps hrecv hb (restartStep_first hst _ _ _)
              exact ⟨_, _, by rw [hit]; simp, prelude_neutral e q hnb,
                Or.inr (Or.inl ⟨rfl, rfl, _, by rw [hit], rfl, rfl⟩)⟩
          | true =>
              cases hk : s.killAllFn with
              | none =>
                  have hit := iteration_nilCall hrecv hb (restartStep_nil hst hk _ _)
                  exact ⟨_, [], by rw [hit]; simp, prelude_neutral e q hnb,
                    Or.inl ⟨rfl, by simp [hit], fun _ => ⟨rfl, rfl⟩⟩⟩
              | some g =>
                  have hit := iteration_steps hrecv hb (restartStep_restart hst hk _ _)
                  exact ⟨_, _, by rw [hit]; simp, prelude_neutral e q hnb,
                    Or.inr (Or.inr ⟨g, rfl, rfl, rfl, _, by rw [hit], rfl, rfl⟩)⟩

/-- One iteration keeps the order of kill and `run` calls, and the loop
variables keep track of the trace. -/
theorem iteration_tracks (f : String → Bool) (s : State) (r : Round) (t0 : List Action)
    (h0 : AllOrdered t0) (hs : Tracks s t0) :
    AllOrdered (t0 ++ (iteration f s r).1) ∧
      ∀ s2, (iteration f s r).2 = Outcome.next s2 → Tracks s2 (t0 ++ (iteration f s r).1) := by
  obtain ⟨N, K, hNK, hN, hK⟩ := iteration_shape f s r
  obtain ⟨h1, hlive, hlast⟩ := allOrdered_neutral N t0 h0 hN
  rw [hNK, ← List.append_assoc]
  rcases hK with ⟨rfl, hnext, -⟩ | ⟨rfl, hst, s2, h2, hst2, hk2⟩ | ⟨g, rfl, hst, hk, s2, h2, hst2, hk2⟩
  · refine ⟨by simpa using h1, ?_⟩
    intro s2 h2
    obtain ⟨hst, hst2, hk2⟩ := hnext s2 h2
    simp only [Tracks, hst, hst2, hk2, List.append_nil, hlive, hlast] at hs ⊢
    exact hs
  · simp only [Tracks, hst] at hs
    obtain ⟨a1, a2, a3⟩ := allOrdered_first_run h1 (hlast.trans hs.1) (hlive.trans hs.2)
      r.isDebuggingEnabled (r.run r.isDebuggingEnabled)
    refine ⟨a1, ?_⟩
    intro s3 h3
    rw [h2] at h3
    simp only [Outcome.next.injEq] at h3
    subst h3
    simp only [Tracks, hst2, hk2, a2, a3]
    exact ⟨rfl, rfl⟩
  · simp only [Tracks, hst, hk] at hs
    obtain ⟨a1, a2, a3⟩ := allOrdered_restart h1 (hlast.trans hs.1) (hlive.trans hs.2)
      r.isDebuggingEnabled (r.run r.isDebuggingEnabled)
    refine ⟨a1, ?_⟩
    intro s3 h3
    rw [h2] at h3
    simp only [Outcome.next.injEq] at h3
    subst h3
    simp only [Tracks, hst2, hk2, a2, a3]
    exact ⟨rfl, rfl⟩

/-- The same for a run of iterations. -/
theorem loop_tracks (f : String → Bool) (rs : List Round) :
    ∀ (s : State) (t0 : List Action), AllOrdered t0 → Tracks s t0 →
      AllOrdered (t0 ++ (loop f s rs).1) ∧
        ∀ s2, (loop f s rs).2 = Outcome.next s2 → Tracks s2 (t0 ++ (loop f s rs).1) := by
  induction rs with
  | nil =>
      intro s t0 h0 hs
      refine ⟨by simpa [loop] using h0, ?_⟩
      intro s2 h2
      simp only [loop, Outcome.next.injEq] at h2
      subst h2
      simpa [loop] using hs
  | cons r rs ih =>
      intro s t0 h0 hs
      obtain ⟨h1, h2⟩ := iteration_tracks f s r t0 h0 hs
      cases hit : iteration f s r with
      | mk ti o =>
          rw [hit] at h1 h2
          cases o with
          | next s1 =>
              rw [loop_cons_next rs hit]
              obtain ⟨a1, a2⟩ := ih s1 (t0 ++ ti) h1 (h2 s1 rfl)
              rw [List.append_assoc] at a1 a2
              exact ⟨a1, a2⟩
          | exit c =>
              rw [loop_cons_stop rs hit (by simp)]
              exact ⟨h1, by simp⟩
          | nilCall =>
              rw [loop_cons_stop rs hit (by simp)]
              exact ⟨h1, by simp⟩
          | blocked =>
              rw [loop_cons_stop rs hit (by simp)]
              exact ⟨h1, by simp⟩

theorem tracks_initState (log : Option String) : Tracks (initState log) [] := by
  simp [Tracks, initState, lastRun, live]

/-- The last result of `run` was returned by a call of `run` in the trace. -/
theorem lastRun_mem (t : List Action) :
    ∀ result, lastRun t = some result → ∃ d, Action.run d result ∈ t := by
  induction t using List.reverseRecOn with
  | nil => intro result h; simp [lastRun] at h
  | append_singleton t a ih =>
      intro result h
      rw [lastRun_concat] at h
      cases a with
      | run d res =>
          simp only [lastRunStep, Option.some.injEq] at h
          subst h
          exact ⟨d, by simp⟩
      | receive e => obtain ⟨d, hd⟩ := ih result h; exact ⟨d, by simp [hd]⟩
      | sleep => obtain ⟨d, hd⟩ := ih result h; exact ⟨d, by simp [hd]⟩
      | flushed e => obtain ⟨d, hd⟩ := ih result h; exact ⟨d, by simp [hd]⟩
      | removeBuildErrorsLog => obtain ⟨d, hd⟩ := ih result h; exact ⟨d, by simp [hd]⟩
      | shouldRebuild e => obtain ⟨d, hd⟩ := ih result h; exact ⟨d, by simp [hd]⟩
      | build d0 ok => obtain ⟨d, hd⟩ := ih result h; exact ⟨d, by simp [hd]⟩
      | exit c => obtain ⟨d, hd⟩ := ih result h; exact ⟨d, by simp [hd]⟩
      | createBuildErrorsLog m => obtain ⟨d, hd⟩ := ih result h; exact ⟨d, by simp [hd]⟩
      | kill g => obtain ⟨d, hd⟩ := ih result h; exact ⟨d, by simp [hd]⟩

/-- When no call of `run` returns nil, a set `started` flag comes with a
stored kill function. -/
theorem loop_killAllFn_set (f : String → Bool) (rs : List Round) :
    ∀ (s s2 : State), (∀ r ∈ rs, ∀ d, r.run d ≠ none) →
      (s.started = true → s.killAllFn ≠ none) →
      (loop f s rs).2 = Outcome.next s2 →
      (s2.started = true → s2.killAllFn ≠ none) := by
  induction rs with
  | nil =>
      intro s s2 _ hs h2
      simp only [loop, Outcome.next.injEq] at h2
      subst h2
      exact hs
  | cons r rs ih =>
      intro s s2 hrs hs h2
      cases hit : iteration f s r with
      | mk ti o =>
          cases o with
          | next s1 =>
              rw [loop_cons_next rs hit] at h2
              refine ih s1 s2 (fun r0 h0 => hrs r0 (by simp [h0])) ?_ h2
              intro _
              obtain ⟨N, K, -, -, hK⟩ := iteration_shape f s r
              rw [hit] at hK
              rcases hK with ⟨-, hnext, -⟩ | ⟨-, -, s3, h3, -, hk3⟩ | ⟨g, -, -, -, s3, h3, -, hk3⟩
              · obtain ⟨hst, -, hk⟩ := hnext s1 rfl
                rw [hk]
                exact hs hst
              · simp only [Outcome.next.injEq] at h3
                subst h3
                rw [hk3]
                exact hrs r (by simp) _
              · simp only [Outcome.next.injEq] at h3
                subst h3
                rw [hk3]
                exact hrs r (by simp) _
          | exit c =>
              rw [loop_cons_stop rs hit (by simp)] at h2
              simp at h2
          | nilCall =>
              rw [loop_cons_stop rs hit (by simp)] at h2
              simp at h2
          | blocked =>
              rw [loop_cons_stop rs hit (by simp)] at h2
              simp at h2

/-! ## Claims -/

/-- C1: at every point `p` of every execution of the coordinator loop, at
most one process handle is live; and when `p` ends with a call of `run`,
either it is the first call of `run`, or the call just before it (hence in
the same iteration) is the completed call of the kill function returned by
the previous call of `run`. -/
theorem terminate_then_start (f : String → Bool) (log : Option String)
    (rounds : List Round) (p : List Action) (hp : p <+: (start f log rounds).1) :
    (live p).length ≤ 1 ∧
      ∀ pre d result, p = pre ++ [Action.run d result] →
        lastRun pre = none ∨
          ∃ pre2 g, pre = pre2 ++ [Action.kill g] ∧ lastRun pre2 = some (some g) :=
  (loop_tracks f rounds (initState log) [] allOrdered_nil (tracks_initState log)).1 p
    (by simpa [start] using hp)

theorem terminate_then_start_witness :
    (live (start htmlGate none [okRound ["/"] 1, okRound ["main.go"] 2]).1).length ≤ 1 ∧
      ∀ pre d result,
        (start htmlGate none [okRound ["/"] 1, okRound ["main.go"] 2]).1 =
          pre ++ [Action.run d result] →
        lastRun pre = none ∨
          ∃ pre2 g, pre = pre2 ++ [Action.kill g] ∧ lastRun pre2 = some (some g) :=
  terminate_then_start htmlGate none [okRound ["/"] 1, okRound ["main.go"] 2] _
    (List.prefix_refl _)

/-- C2, as stated, fails: when the first event asks for no rebuild, the first
iteration starts the process without a build; the first build ever invoked
then happens in the second iteration, and its failure neither exits the
program nor finds `run` uncalled. -/
theorem first_build_failure_after_start_not_fatal :
    (buildResults
        (start htmlGate none [okRound ["index.html"] 1, failRound ["main.go"] 2]).1).head? =
      some false ∧
      (start htmlGate none [okRound ["index.html"] 1, failRound ["main.go"] 2]).2 ≠
        Outcome.exit 1 ∧
      (start htmlGate none [okRound ["index.html"] 1, failRound ["main.go"] 2]).1.any isRun =
        true := by
  decide

/-- C2 (amended): if the first loop iteration invokes a build and that build
fails, the program exits with status 1 and `run` is never called. -/
theorem first_iteration_build_failure_exits (f : String → Bool) (log : Option String)
    (r : Round) (rs : List Round) (eventName : String) (queued : List String)
    (hrecv : r.sent = eventName :: queued)
    (hgate : f eventName = true)
    (hfail : (r.build r.isDebuggingEnabled).2 = false) :
    (start f log (r :: rs)).2 = Outcome.exit 1 ∧
      (buildResults (start f log (r :: rs)).1).head? = some false ∧
      ∀ a ∈ (start f log (r :: rs)).1, isRun a = false := by
  have hq : (initState log).startChannel ++ r.sent = eventName :: queued := by
    simp [initState, hrecv]
  have hit := iteration_exit hq
    (buildStep_fail_first (r := r) (rfl : (initState log).started = false) hgate hfail _)
  have hl := loop_cons_stop rs hit (by simp)
  unfold start
  rw [hl]
  refine ⟨rfl, by simp [buildResults, buildResults_flushed], ?_⟩
  intro a ha
  simp only [List.mem_append, List.mem_cons, List.mem_map, List.not_mem_nil,
    or_false] at ha
  casesm* _ ∨ _, ∃ _, _, _ ∧ _ <;> subst_vars <;> rfl

theorem first_iteration_build_failure_exits_witness :
    (start htmlGate none [failRound ["/"] 1, okRound ["main.go"] 2]).2 = Outcome.exit 1 ∧
      (buildResults (start htmlGate none [failRound ["/"] 1, okRound ["main.go"] 2]).1).head? =
        some false ∧
      ∀ a ∈ (start htmlGate none [failRound ["/"] 1, okRound ["main.go"] 2]).1,
        isRun a = false :=
  first_iteration_build_failure_exits htmlGate none (failRound ["/"] 1)
    [okRound ["main.go"] 2] "/" [] rfl (by decide) rfl

/-- C3: an iteration that begins with `started` true and whose build fails
completes, calls neither a kill function nor `run`, and leaves `killAllFn` as
it was (and `started` true). -/
theorem failed_build_keeps_running_process (f : String → Bool) (s : State) (r : Round)
    (eventName : String) (queued : List String)
    (hstarted : s.started = true)
    (hrecv : s.startChannel ++ r.sent = eventName :: queued)
    (hgate : f eventName = true)
    (hfail : (r.build r.isDebuggingEnabled).2 = false) :
    (∀ a ∈ (iteration f s r).1, isKill a = false ∧ isRun a = false) ∧
      ∃ s2, (iteration f s r).2 = Outcome.next s2 ∧ s2.killAllFn = s.killAllFn ∧
        s2.started = true := by
  have hb := buildStep_fail_started (r := r) hstarted hgate hfail
    (removeBuildErrorsLog r.removeErr s.buildErrorsLog)
  have hk := restartStep_failed s.started s.killAllFn r r.isDebuggingEnabled
  rw [iteration_steps hrecv hb hk]
  refine ⟨?_, _, rfl, rfl, rfl⟩
  intro a ha
  simp only [List.mem_append, List.mem_cons, List.mem_map, List.not_mem_nil,
    List.append_nil, or_false] at ha
  casesm* _ ∨ _, ∃ _, _, _ ∧ _ <;> subst_vars <;> simp [isKill, isRun]

theorem failed_build_keeps_running_process_witness :
    (∀ a ∈ (iteration htmlGate runningState (failRound ["main.go"] 2)).1,
        isKill a = false ∧ isRun a = false) ∧
      ∃ s2, (iteration htmlGate runningState (failRound ["main.go"] 2)).2 = Outcome.next s2 ∧
        s2.killAllFn = runningState.killAllFn ∧ s2.started = true :=
  failed_build_keeps_running_process htmlGate runningState (failRound ["main.go"] 2)
    "main.go" [] rfl rfl (by decide) rfl

/-- C4, as stated, fails: from the state reached after one iteration, an event
for which `shouldRebuild` is false makes the loop call the stored kill
function and `run`, and store a new kill function. -/
theorem no_rebuild_event_changes_state :
    htmlGate "index.html" = false ∧
      (start htmlGate none [okRound ["/"] 1]).2 = Outcome.next runningState ∧
      (iteration htmlGate runningState (okRound ["index.html"] 2)).1 =
        [Action.receive "index.html", Action.sleep, Action.removeBuildErrorsLog,
          Action.shouldRebuild "index.html", Action.kill 1, Action.run false (some 2)] ∧
      (iteration htmlGate runningState (okRound ["index.html"] 2)).2 =
        Outcome.next { loopIndex := 2, started := true, killAllFn := some 2,
                       startChannel := [], buildErrorsLog := none } ∧
      runningState.killAllFn ≠ some 2 := by
  decide

/-- C4 (amended): in an iteration whose trigger event makes `shouldRebuild`
return false, `build` is not called, and the restart step runs as after a
successful build: the stored kill function is called exactly when `started`
is true, `run` is called, its result becomes the stored kill function, and
`started` is true afterwards. -/
theorem no_rebuild_event_skips_build_and_restarts (f : String → Bool) (s : State)
    (r : Round) (eventName : String) (queued : List String)
    (hrecv : s.startChannel ++ r.sent = eventName :: queued)
    (hgate : f eventName = false)
    (hset : s.started = true → s.killAllFn ≠ none) :
    (∀ a ∈ (iteration f s r).1, isBuild a = false) ∧
      Action.run r.isDebuggingEnabled (r.run r.isDebuggingEnabled) ∈ (iteration f s r).1 ∧
      (∀ g, Action.kill g ∈ (iteration f s r).1 ↔
        (s.started = true ∧ s.killAllFn = some g)) ∧
      ∃ s2, (iteration f s r).2 = Outcome.next s2 ∧ s2.started = true ∧
        s2.killAllFn = r.run r.isDebuggingEnabled := by
  have hb := buildStep_skip hgate s.started r r.isDebuggingEnabled
    (removeBuildErrorsLog r.removeErr s.buildErrorsLog)
  have hk : ∃ tk, restartStep s.started s.killAllFn r r.isDebuggingEnabled false =
        (tk, some (r.run r.isDebuggingEnabled)) ∧
      Action.run r.isDebuggingEnabled (r.run r.isDebuggingEnabled) ∈ tk ∧
      (∀ a ∈ tk, isBuild a = false) ∧
      (∀ g, Action.kill g ∈ tk ↔ (s.started = true ∧ s.killAllFn = some g)) := by
    cases hst : s.started with
    | false => exact ⟨_, restartStep_first rfl _ _ _, by simp, by simp [isBuild], by simp⟩
    | true =>
        obtain ⟨g0, hg0⟩ := Option.ne_none_iff_exists'.mp (hset hst)
        exact ⟨_, restartStep_restart rfl hg0 _ _, by simp, by simp [isBuild],
          by simp [hg0, eq_comm]⟩
  obtain ⟨tk, hk, hrun, hnb, hkill⟩ := hk
  rw [iteration_steps hrecv hb hk]
  refine ⟨?_, ?_, ?_, _, rfl, rfl, rfl⟩
  · intro a ha
    simp only [List.mem_append, List.mem_cons, List.mem_map, List.not_mem_nil,
      or_false] at ha
    rcases ha with rfl | rfl | ⟨x, -, rfl⟩ | rfl | rfl | ha
    · rfl
    · rfl
    · rfl
    · rfl
    · rfl
    · exact hnb a ha
  · simp [hrun]
  · intro g
    simp [hkill g]

theorem no_rebuild_event_skips_build_and_restarts_witness :
    (∀ a ∈ (iteration htmlGate runningState (okRound ["index.html"] 2)).1,
        isBuild a = false) ∧
      Action.run false (some 2) ∈ (iteration htmlGate runningState (okRound ["index.html"] 2)).1 ∧
      (∀ g, Action.kill g ∈ (iteration htmlGate runningState (okRound ["index.html"] 2)).1 ↔
        (runningState.started = true ∧ runningState.killAllFn = some g)) ∧
      ∃ s2, (iteration htmlGate runningState (okRound ["index.html"] 2)).2 = Outcome.next s2 ∧
        s2.started = true ∧ s2.killAllFn = some 2 :=
  no_rebuild_event_skips_build_and_restarts htmlGate runningState (okRound ["index.html"] 2)
    "index.html" [] rfl (by decide) (by decide)

/-- C5, as stated, fails: a burst whose first event is turned down by
`shouldRebuild` triggers no build attempt, whatever the later events are. -/
theorem burst_with_filtered_first_event_builds_nothing :
    htmlGate "index.html" = false ∧
      (buildResults
        (iteration htmlGate (initState none) (okRound ["index.html", "main.go"] 1)).1).length
        ≠ 1 := by
  decide

/-- C5 (amended): when the events queued by the end of the delay sleep are
`eventName :: queued`, the iteration calls `shouldRebuild` exactly once, on
`eventName`, drops every event of `queued`, and makes exactly one build
attempt if `shouldRebuild eventName` is true and none otherwise. -/
theorem burst_collapses_to_first_event (f : String → Bool) (s : State) (r : Round)
    (eventName : String) (queued : List String)
    (hrecv : s.startChannel ++ r.sent = eventName :: queued) :
    (iteration f s r).1.filter isShouldRebuild = [Action.shouldRebuild eventName] ∧
      (iteration f s r).1.filter isBuild =
        (if f eventName then
          [Action.build r.isDebuggingEnabled (r.build r.isDebuggingEnabled).2]
         else []) ∧
      (buildResults (iteration f s r).1).length = (if f eventName then 1 else 0) ∧
      ∀ e ∈ queued, Action.flushed e ∈ (iteration f s r).1 := by
  have hfl1 : ∀ q : List String, (q.map Action.flushed).filter isShouldRebuild = [] := by
    intro q; induction q with
    | nil => rfl
    | cons x q ih => simp [List.filter, isShouldRebuild]
  have hfl2 : ∀ q : List String, (q.map Action.flushed).filter isBuild = [] := by
    intro q; induction q with
    | nil => rfl
    | cons x q ih => simp [List.filter, isBuild]
  have hfl3 := buildResults_flushed
  have hmem : ∀ (t : List Action) (o : Outcome), ∀ e ∈ queued,
      Action.flushed e ∈ (Action.receive eventName :: Action.sleep ::
        (queued.map Action.flushed ++ t), o).1 := by
    intro t o e he
    simp only [List.mem_cons, List.mem_append, List.mem_map]
    exact Or.inr (Or.inr (Or.inl ⟨e, he, rfl⟩))
  cases hgate : f eventName with
  | false =>
      have hb := buildStep_skip hgate s.started r r.isDebuggingEnabled
        (removeBuildErrorsLog r.removeErr s.buildErrorsLog)
      cases hst : s.started with
      | false =>
          rw [iteration_steps hrecv hb (restartStep_first hst _ _ _)]
          refine ⟨?_, ?_, ?_, hmem _ _⟩ <;>
            simp [List.filter_cons, List.filter_append, hfl1, hfl2, hfl3, isShouldRebuild,
              isBuild, buildResults]
      | true =>
          cases hk : s.killAllFn with
          | none =>
              rw [iteration_nilCall hrecv hb (restartStep_nil hst hk _ _)]
              refine ⟨?_, ?_, ?_, hmem _ _⟩ <;>
                simp [List.filter_cons, List.filter_append, hfl1, hfl2, hfl3, isShouldRebuild,
                  isBuild, buildResults]
          | some g =>
              rw [iteration_steps hrecv hb (restartStep_restart hst hk _ _)]
              refine ⟨?_, ?_, ?_, hmem _ _⟩ <;>
                simp [List.filter_cons, List.filter_append, hfl1, hfl2, hfl3, isShouldRebuild,
                  isBuild, buildResults]
  | true =>
      cases hok : (r.build r.isDebuggingEnabled).2 with
      | false =>
          cases hst : s.started with
          | false =>
              rw [iteration_exit hrecv (buildStep_fail_first hst hgate hok _)]
              refine ⟨?_, ?_, ?_, hmem _ _⟩ <;>
                simp [List.filter_cons, List.filter_append, hfl1, hfl2, hfl3, isShouldRebuild,
                  isBuild, buildResults]
          | true =>
              rw [iteration_steps hrecv (buildStep_fail_started hst hgate hok _)
                (restartStep_failed _ _ _ _)]
              refine ⟨?_, ?_, ?_, hmem _ _⟩ <;>
                simp [List.filter_cons, List.filter_append, hfl1, hfl2, hfl3, isShouldRebuild,
                  isBuild, buildResults]
      | true =>
          have hb := buildStep_ok hgate hok s.started
            (removeBuildErrorsLog r.removeErr s.buildErrorsLog)
          cases hst : s.started with
          | false =>
              rw [iteration_steps hrecv hb (restartStep_first hst _ _ _)]
              refine ⟨?_, ?_, ?_, hmem _ _⟩ <;>
                simp [List.filter_cons, List.filter_append, hfl1, hfl2, hfl3, isShouldRebuild,
                  isBuild, buildResults]
          | true =>
              cases hk : s.killAllFn with
              | none =>
                  rw [iteration_nilCall hrecv hb (restartStep_nil hst hk _ _)]
                  refine ⟨?_, ?_, ?_, hmem _ _⟩ <;>
                    simp [List.filter_cons, List.filter_append, hfl1, hfl2, hfl3, isShouldRebuild,
                      isBuild, buildResults]
              | some g =>
                  rw [iteration_steps hrecv hb (restartStep_restart hst hk _ _)]
                  refine ⟨?_, ?_, ?_, hmem _ _⟩ <;>
                    simp [List.filter_cons, List.filter_append, hfl1, hfl2, hfl3, isShouldRebuild,
                      isBuild, buildResults]

theorem burst_collapses_to_first_event_witness :
    (iteration htmlGate runningState (okRound ["main.go", "main.go", "index.html"] 2)).1.filter
        isShouldRebuild = [Action.shouldRebuild "main.go"] ∧
      (iteration htmlGate runningState (okRound ["main.go", "main.go", "index.html"] 2)).1.filter
        isBuild = (if htmlGate "main.go" then [Action.build false true] else []) ∧
      (buildResults
        (iteration htmlGate runningState
          (okRound ["main.go", "main.go", "index.html"] 2)).1).length =
        (if htmlGate "main.go" then 1 else 0) ∧
      ∀ e ∈ ["main.go", "index.html"], Action.flushed e ∈
        (iteration htmlGate runningState (okRound ["main.go", "main.go", "index.html"] 2)).1 :=
  burst_collapses_to_first_event htmlGate runningState
    (okRound ["main.go", "main.go", "index.html"] 2) "main.go" ["main.go", "index.html"] rfl

/-- C6, as stated, fails: after a failed build (iteration 2) an event that
asks for no rebuild (iteration 3) removes the build-errors file, although
the most recent build attempt failed. -/
theorem artifact_absent_after_failed_build :
    (start htmlGate none
        [okRound ["/"] 1, failRound ["main.go"] 2, okRound ["index.html"] 3]).2 =
      Outcome.next { loopIndex := 3, started := true, killAllFn := some 3,
                     startChannel := [], buildErrorsLog := none } ∧
      (buildResults (start htmlGate none
        [okRound ["/"] 1, failRound ["main.go"] 2, okRound ["index.html"] 3]).1).getLast? =
        some false := by
  decide

/-- C6 (amended): after every completed iteration in which the removal and
the write of the build-errors file succeed, the file exists if and only if
that iteration made a build attempt and it failed; it is absent after an
iteration whose build succeeded and after one that made no build attempt. -/
theorem artifact_iff_build_of_iteration_failed (f : String → Bool) (s s2 : State)
    (r : Round)
    (hrem : r.removeErr = none) (hcreate : r.createOk = true)
    (hnext : (iteration f s r).2 = Outcome.next s2) :
    (s2.buildErrorsLog.isSome = true ↔ buildResults (iteration f s r).1 = [false]) ∧
      (buildResults (iteration f s r).1 = [true] → s2.buildErrorsLog = none) ∧
      (buildResults (iteration f s r).1 = [] → s2.buildErrorsLog = none) ∧
      (buildResults (iteration f s r).1 = [false] ∨
        buildResults (iteration f s r).1 = [true] ∨
        buildResults (iteration f s r).1 = []) := by
  rcases iteration_split f s r with hb | ⟨e, q, hrecv⟩
  · rw [hb] at hnext; simp at hnext
  have hlog : removeBuildErrorsLog r.removeErr s.buildErrorsLog = none := by
    simp [removeBuildErrorsLog, hrem]
  cases hgate : f e with
  | false =>
      have hb := buildStep_skip hgate s.started r r.isDebuggingEnabled
        (removeBuildErrorsLog r.removeErr s.buildErrorsLog)
      cases hst : s.started with
      | false =>
          rw [iteration_steps hrecv hb (restartStep_first hst _ _ _)] at hnext ⊢
          simp only [Outcome.next.injEq] at hnext
          subst hnext
          simp [buildResults, buildResults_flushed, hlog]
      | true =>
          cases hk : s.killAllFn with
          | none =>
              rw [iteration_nilCall hrecv hb (restartStep_nil hst hk _ _)] at hnext
              simp at hnext
          | some g =>
              rw [iteration_steps hrecv hb (restartStep_restart hst hk _ _)] at hnext ⊢
              simp only [Outcome.next.injEq] at hnext
              subst hnext
              simp [buildResults, buildResults_flushed, hlog]
  | true =>
      cases hok : (r.build r.isDebuggingEnabled).2 with
      | false =>
          cases hst : s.started with
          | false =>
              rw [iteration_exit hrecv (buildStep_fail_first hst hgate hok _)] at hnext
              simp at hnext
          | true =>
              rw [iteration_steps hrecv (buildStep_fail_started hst hgate hok _)
                (restartStep_failed _ _ _ _)] at hnext ⊢
              simp only [Outcome.next.injEq] at hnext
              subst hnext
              simp [buildResults, buildResults_flushed, createBuildErrorsLog, hcreate]
      | true =>
          have hb := buildStep_ok hgate hok s.started
            (removeBuildErrorsLog r.removeErr s.buildErrorsLog)
          cases hst : s.started with
          | false =>
              rw [iteration_steps hrecv hb (restartStep_first hst _ _ _)] at hnext ⊢
              simp only [Outcome.next.injEq] at hnext
              subst hnext
              simp [buildResults, buildResults_flushed, hlog]
          | true =>
              cases hk : s.killAllFn with
              | none =>
                  rw [iteration_nilCall hrecv hb (restartStep_nil hst hk _ _)] at hnext
                  simp at hnext
              | some g =>
                  rw [iteration_steps hrecv hb (restartStep_restart hst hk _ _)] at hnext ⊢
                  simp only [Outcome.next.injEq] at hnext
                  subst hnext
                  simp [buildResults, buildResults_flushed, hlog]

theorem artifact_iff_build_of_iteration_failed_witness :
    ((some "main.go:1: syntax error" : Option String).isSome = true ↔
        buildResults (iteration htmlGate runningState (failRound ["main.go"] 2)).1 =
          [false]) ∧
      (buildResults (iteration htmlGate runningState (failRound ["main.go"] 2)).1 = [true] →
        (some "main.go:1: syntax error" : Option String) = none) ∧
      (buildResults (iteration htmlGate runningState (failRound ["main.go"] 2)).1 = [] →
        (some "main.go:1: syntax error" : Option String) = none) ∧
      (buildResults (iteration htmlGate runningState (failRound ["main.go"] 2)).1 = [false] ∨
        buildResults (iteration htmlGate runningState (failRound ["main.go"] 2)).1 = [true] ∨
        buildResults (iteration htmlGate runningState (failRound ["main.go"] 2)).1 = []) :=
  artifact_iff_build_of_iteration_failed htmlGate runningState
    { loopIndex := 2, started := true, killAllFn := some 1, startChannel := [],
      buildErrorsLog := some "main.go:1: syntax error" }
    (failRound ["main.go"] 2) rfl rfl (by decide)

/-- C7: `flushEvents` is total, receives exactly the queued events, in
order, drops them and leaves the channel empty; hence after a completed
iteration the channel holds only what was sent after the flush, and the next
iteration's trigger is the first event sent after the flush. -/
theorem flushEvents_drains_channel (f : String → Bool) (s s2 : State) (r r2 : Round)
    (t : List Action) (hnext : iteration f s r = (t, Outcome.next s2)) :
    (∀ q, flushEvents q = (q.map Action.flushed, [])) ∧
      (∃ e q rest, s.startChannel ++ r.sent = e :: q ∧
        t = Action.receive e :: Action.sleep :: (q.map Action.flushed ++ rest) ∧
        ∀ a ∈ rest, ∀ x, a ≠ Action.flushed x) ∧
      s2.startChannel = r.sentAfterFlush ∧
      ∀ e2 q2, r.sentAfterFlush ++ r2.sent = e2 :: q2 →
        (iteration f s2 r2).1.head? = some (Action.receive e2) := by
  have hch := (iteration_next hnext).2.2
  refine ⟨fun q => Prod.ext (flushEvents_fst q) (flushEvents_snd q), ?_, hch, ?_⟩
  · rcases iteration_split f s r with hb | ⟨e, q, hrecv⟩
    · rw [hb] at hnext; simp at hnext
    · simp only [iteration, hrecv, flushEvents_fst] at hnext
      split at hnext
      · simp at hnext
      · rename_i bf log2 hb
        split at hnext
        · simp at hnext
        · simp only [Prod.mk.injEq] at hnext
          refine ⟨e, q, Action.removeBuildErrorsLog ::
            ((buildStep f s.started r e r.isDebuggingEnabled
                (removeBuildErrorsLog r.removeErr s.buildErrorsLog)).1 ++
              (restartStep s.started s.killAllFn r r.isDebuggingEnabled bf).1),
            hrecv, by rw [← hnext.1]; simp, ?_⟩
          intro a ha x
          simp only [List.mem_cons, List.mem_append] at ha
          rcases ha with rfl | ha | ha
          · simp
          · exact buildStep_not_flushed _ _ _ _ _ _ a ha x
          · exact restartStep_not_flushed _ _ _ _ _ a ha x
  · intro e2 q2 h2
    exact iteration_head (by rw [hch]; exact h2)

theorem flushEvents_drains_channel_witness :
    (∀ q, flushEvents q = (q.map Action.flushed, [])) ∧
      (∃ e q rest, (initState none).startChannel ++ (okRound ["/", "a.go", "b.go"] 1).sent =
          e :: q ∧
        [Action.receive "/", Action.sleep, Action.flushed "a.go", Action.flushed "b.go",
          Action.removeBuildErrorsLog, Action.shouldRebuild "/", Action.build false true,
          Action.run false (some 1)] =
          Action.receive e :: Action.sleep :: (q.map Action.flushed ++ rest) ∧
        ∀ a ∈ rest, ∀ x, a ≠ Action.flushed x) ∧
      runningState.startChannel = (okRound ["/", "a.go", "b.go"] 1).sentAfterFlush ∧
      ∀ e2 q2, (okRound ["/", "a.go", "b.go"] 1).sentAfterFlush ++
          (okRound ["main.go"] 2).sent = e2 :: q2 →
        (iteration htmlGate runningState (okRound ["main.go"] 2)).1.head? =
          some (Action.receive e2) :=
  flushEvents_drains_channel htmlGate (initState none) runningState
    (okRound ["/", "a.go", "b.go"] 1) (okRound ["main.go"] 2) _ (by decide)

/-- C8, as stated, fails: with a kill function set and a child that is gone
500 ms after the signal, well within the grace period, the only exit of the
program is still the timer's `os.Exit(1)` at the 2-second deadline. -/
theorem exit_forced_although_child_terminated :
    500 ≤ gracePeriod ∧
      (500, SignalAction.killed 1) ∈ afterSignal (some 1) 500 ∧
      exits (afterSignal (some 1) 500) = [(2000, 1)] := by
  decide

/-- C8 (amended): once the signal is received, the stop goroutine calls the
stored kill function, at once, exactly when one is set; the call returns in
the trace exactly when it takes no longer than the grace period; and in every
case the program's only exit is `os.Exit(1)` at the 2-second deadline. -/
theorem signal_exit_forced_at_deadline (killAllFn : Option KillFn) (killDuration : Nat) :
    (∀ t f, (t, SignalAction.kill f) ∈ afterSignal killAllFn killDuration ↔
        (killAllFn = some f ∧ t = 0)) ∧
      (∀ t f, (t, SignalAction.killed f) ∈ afterSignal killAllFn killDuration ↔
        (killAllFn = some f ∧ t = killDuration ∧ killDuration ≤ gracePeriod)) ∧
      exits (afterSignal killAllFn killDuration) = [(gracePeriod, 1)] := by
  cases killAllFn with
  | none =>
      refine ⟨?_, ?_, ?_⟩
      · intro t f
        simp [afterSignal, stopGoroutine, timerCallback, gracePeriod]
      · intro t f
        simp [afterSignal, stopGoroutine, timerCallback, gracePeriod]
      · simp [afterSignal, stopGoroutine, timerCallback, gracePeriod, exits]
  | some g =>
      by_cases hd : killDuration ≤ 2000
      · refine ⟨?_, ?_, ?_⟩
        · intro t f
          simp [afterSignal, stopGoroutine, timerCallback, gracePeriod, List.filter, hd]
          constructor
          · rintro ⟨rfl, rfl⟩; exact ⟨rfl, rfl⟩
          · rintro ⟨rfl, rfl⟩; exact ⟨rfl, rfl⟩
        · intro t f
          simp [afterSignal, stopGoroutine, timerCallback, gracePeriod, List.filter, hd]
          constructor
          · rintro ⟨rfl, rfl⟩; exact ⟨rfl, rfl⟩
          · rintro ⟨rfl, rfl⟩; exact ⟨rfl, rfl⟩
        · simp [afterSignal, stopGoroutine, timerCallback, gracePeriod, List.filter, hd, exits]
      · refine ⟨?_, ?_, ?_⟩
        · intro t f
          simp [afterSignal, stopGoroutine, timerCallback, gracePeriod, List.filter, hd]
          constructor
          · rintro ⟨rfl, rfl⟩; exact ⟨rfl, rfl⟩
          · rintro ⟨rfl, rfl⟩; exact ⟨rfl, rfl⟩
        · intro t f
          simp [afterSignal, stopGoroutine, timerCallback, gracePeriod, List.filter, hd]
        · simp [afterSignal, stopGoroutine, timerCallback, gracePeriod, List.filter, hd, exits]

/-- C9, as stated, fails in its middle clause: from the state reached after
one iteration, an iteration whose build fails reaches `started = true`
without exiting and without calling `run`. -/
theorem completed_iteration_without_run :
    (start htmlGate none [okRound ["/"] 1]).2 = Outcome.next runningState ∧
      (iteration htmlGate runningState (failRound ["main.go"] 2)).2 =
        Outcome.next { loopIndex := 2, started := true, killAllFn := some 1,
                       startChannel := [],
                       buildErrorsLog := some "main.go:1: syntax error" } ∧
      (iteration htmlGate runningState (failRound ["main.go"] 2)).1.any isRun = false := by
  decide

/-- C9 (amended): in an execution in which no call of `run` has returned nil, let `s`
be the state after the completed iterations `rounds`.  If `started` is true,
the stored kill function is set and is the result of the last call of `run`
of those earlier iterations.  The next iteration never calls a nil kill
function, calls a kill function only if `started` is true, and then calls the
stored one; and an iteration that turns `started` from false to true has
called `run` and stored its result. -/
theorem kill_function_set_before_call (f : String → Bool) (log : Option String)
    (rounds : List Round) (r : Round) (s : State)
    (hnonnil : ∀ r0 ∈ rounds, ∀ d, r0.run d ≠ none)
    (hreach : (start f log rounds).2 = Outcome.next s) :
    (s.started = true → ∃ g, s.killAllFn = some g ∧
        lastRun (start f log rounds).1 = some (some g) ∧
        ∃ d, Action.run d (some g) ∈ (start f log rounds).1) ∧
      (iteration f s r).2 ≠ Outcome.nilCall ∧
      (∀ g, Action.kill g ∈ (iteration f s r).1 →
        s.started = true ∧ s.killAllFn = some g) ∧
      (s.started = false → ∀ s2, (iteration f s r).2 = Outcome.next s2 →
        ∃ d, Action.run d s2.killAllFn ∈ (iteration f s r).1) := by
  have hset : s.started = true → s.killAllFn ≠ none :=
    loop_killAllFn_set f rounds (initState log) s hnonnil (by simp [initState]) hreach
  have htr : Tracks s (start f log rounds).1 := by
    have := (loop_tracks f rounds (initState log) [] allOrdered_nil
      (tracks_initState log)).2 s hreach
    simpa [start] using this
  obtain ⟨N, K, hNK, hN, hK⟩ := iteration_shape f s r
  refine ⟨?_, ?_, ?_, ?_⟩
  · intro hst
    obtain ⟨g, hg⟩ := Option.ne_none_iff_exists'.mp (hset hst)
    have hl : lastRun (start f log rounds).1 = some (some g) := by
      have := htr.1
      simpa [hst, hg] using this
    exact ⟨g, hg, hl, lastRun_mem _ _ hl⟩
  · intro hnil
    rcases hK with ⟨-, -, hn⟩ | ⟨-, -, s2, h2, -⟩ | ⟨g, -, -, -, s2, h2, -⟩
    · obtain ⟨hst, hk⟩ := hn hnil
      exact hset hst hk
    · rw [h2] at hnil; simp at hnil
    · rw [h2] at hnil; simp at hnil
  · intro g hg
    rw [hNK, List.mem_append] at hg
    rcases hg with hg | hg
    · have := (hN _ hg).2
      simp [isKill] at this
    · rcases hK with ⟨rfl, -, -⟩ | ⟨rfl, -, -⟩ | ⟨g2, rfl, hst, hk, -⟩
      · simp at hg
      · simp at hg
      · simp only [List.mem_cons, Action.kill.injEq, List.not_mem_nil, or_false,
          reduceCtorEq] at hg
        subst hg
        exact ⟨hst, hk⟩
  · intro hst s2 h2
    rcases hK with ⟨-, hn, -⟩ | ⟨rfl, -, s3, h3, -, hk3⟩ | ⟨g, -, hst2, -⟩
    · rw [(hn s2 h2).1] at hst
      exact absurd hst (by decide)
    · rw [h3] at h2
      simp only [Outcome.next.injEq] at h2
      subst h2
      exact ⟨r.isDebuggingEnabled, by rw [hNK, hk3]; simp⟩
    · rw [hst2] at hst
      exact absurd hst (by decide)

theorem kill_function_set_before_call_witness :
    ((runningState.started = true → ∃ g, runningState.killAllFn = some g ∧
        lastRun (start htmlGate none [okRound ["/"] 1]).1 = some (some g) ∧
        ∃ d, Action.run d (some g) ∈ (start htmlGate none [okRound ["/"] 1]).1) ∧
      (iteration htmlGate runningState (okRound ["main.go"] 2)).2 ≠ Outcome.nilCall ∧
      (∀ g, Action.kill g ∈ (iteration htmlGate runningState (okRound ["main.go"] 2)).1 →
        runningState.started = true ∧ runningState.killAllFn = some g) ∧
      (runningState.started = false →
        ∀ s2, (iteration htmlGate runningState (okRound ["main.go"] 2)).2 =
            Outcome.next s2 →
          ∃ d, Action.run d s2.killAllFn ∈
            (iteration htmlGate runningState (okRound ["main.go"] 2)).1)) ∧
    (((initState none).started = true → ∃ g, (initState none).killAllFn = some g ∧
        lastRun (start htmlGate none []).1 = some (some g) ∧
        ∃ d, Action.run d (some g) ∈ (start htmlGate none []).1) ∧
      (iteration htmlGate (initState none) (okRound ["/"] 1)).2 ≠ Outcome.nilCall ∧
      (∀ g, Action.kill g ∈ (iteration htmlGate (initState none) (okRound ["/"] 1)).1 →
        (initState none).started = true ∧ (initState none).killAllFn = some g) ∧
      ((initState none).started = false →
        ∀ s2, (iteration htmlGate (initState none) (okRound ["/"] 1)).2 =
            Outcome.next s2 →
          ∃ d, Action.run d s2.killAllFn ∈
            (iteration htmlGate (initState none) (okRound ["/"] 1)).1)) :=
  ⟨kill_function_set_before_call htmlGate none [okRound ["/"] 1] (okRound ["main.go"] 2)
      runningState (by simp [okRound]) (by decide),
    kill_function_set_before_call htmlGate none [] (okRound ["/"] 1)
      (initState none) (by simp) (by decide)⟩

/-- C10: at the start of the iteration that follows `rounds.length` completed
iterations, `started` is false exactly when no iteration was completed (the
first iteration), whatever the earlier iterations did; so an iteration whose
build fails exits with status 1 if and only if it is the first iteration,
and in every later iteration the loop goes on. -/
theorem started_false_exactly_in_first_iteration (f : String → Bool) (log : Option String)
    (rounds : List Round) (s : State) (r : Round)
    (eventName : String) (queued : List String)
    (hrun : (start f log rounds).2 = Outcome.next s) :
    (s.started = false ↔ rounds = []) ∧
      s.loopIndex = rounds.length ∧
      (s.startChannel ++ r.sent = eventName :: queued → f eventName = true →
        (r.build r.isDebuggingEnabled).2 = false →
        ((iteration f s r).2 = Outcome.exit 1 ↔ rounds = []) ∧
          (rounds ≠ [] → ∃ s2, (iteration f s r).2 = Outcome.next s2)) := by
  obtain ⟨hli, hne, hnil⟩ :=
    loop_next (Prod.ext rfl hrun : loop f (initState log) rounds = (_, Outcome.next s))
  have hstarted : s.started = false ↔ rounds = [] := by
    constructor
    · intro h
      by_contra hc
      rw [hne hc] at h
      exact absurd h (by decide)
    · intro h
      rw [hnil h]
      rfl
  refine ⟨hstarted, by simpa [initState] using hli, ?_⟩
  intro hrecv hgate hfail
  refine ⟨?_, ?_⟩
  · cases hst : s.started with
    | false =>
        rw [iteration_exit hrecv (buildStep_fail_first hst hgate hfail _)]
        simpa using hstarted.mp hst
    | true =>
        rw [iteration_steps hrecv (buildStep_fail_started hst hgate hfail _)
          (restartStep_failed _ _ _ _)]
        have : rounds ≠ [] := fun h => by rw [hstarted.mpr h] at hst; exact absurd hst (by decide)
        simpa using this
  · intro hne2
    rw [iteration_steps hrecv (buildStep_fail_started (hne hne2) hgate hfail _)
      (restartStep_failed _ _ _ _)]
    exact ⟨_, rfl⟩

theorem started_false_exactly_in_first_iteration_witness :
    (runningState.started = false ↔ [okRound ["index.html"] 1] = []) ∧
      runningState.loopIndex = [okRound ["index.html"] 1].length ∧
      (runningState.startChannel ++ (failRound ["main.go"] 2).sent = "main.go" :: [] →
        htmlGate "main.go" = true →
        ((failRound ["main.go"] 2).build (failRound ["main.go"] 2).isDebuggingEnabled).2 =
          false →
        ((iteration htmlGate runningState (failRound ["main.go"] 2)).2 = Outcome.exit 1 ↔
          [okRound ["index.html"] 1] = []) ∧
        ([okRound ["index.html"] 1] ≠ [] →
          ∃ s2, (iteration htmlGate runningState (failRound ["main.go"] 2)).2 =
            Outcome.next s2)) :=
  started_false_exactly_in_first_iteration htmlGate none [okRound ["index.html"] 1]
    runningState (failRound ["main.go"] 2) "main.go" [] (by decide)

end Runner
